import Mathlib

/-!
Shallow embedding of src/simulator.py (DemCoin Game Theory Simulator).

Python floats are modelled as exact rationals.  Python division, which
raises ZeroDivisionError on a zero divisor, is modelled by the helper
pydiv returning none in that case, and every function that performs such
a division returns an Option.  The random trait draws performed by the
constructor are modelled by an explicit trait oracle passed to
build_citizens; all other functions consume an explicit agent list and
configuration record, mirroring the attributes of the Python object.
-/

namespace DemCoinSim

/-- Citizen record created in the constructor (simulator.py lines 36-41). -/
structure Citizen where
  id : ℕ
  skill : ℚ
  time_value : ℚ
  civic_interest : ℚ
deriving DecidableEq

/-- Configuration scalars held on the simulator object (lines 15-27),
with the constructor's default values. -/
structure Config where
  num_citizens : ℕ := 10000
  demcoin_per_hour : ℚ := 15
  success_bonus : ℚ := 100
  time_cost : ℚ := 3
  quality_threshold : ℚ := 7
deriving DecidableEq

/-- Model of the citizen-population construction (lines 32-43): the uniform
random draws are abstracted into a trait oracle giving each index a
(skill, time_value, civic_interest) triple.  No validation is performed on
the population size, exactly as in the source constructor. -/
def build_citizens (n : ℕ) (traits : ℕ → ℚ × ℚ × ℚ) : List Citizen :=
  (List.range n).map fun i =>
    { id := i, skill := (traits i).1, time_value := (traits i).2.1,
      civic_interest := (traits i).2.2 }

/-- calculate_utility_study (lines 45-70). -/
def calculate_utility_study (cfg : Config) (citizen : Citizen)
    (participation_rate : ℚ) : ℚ :=
  let quality_score := citizen.skill * 8
  let immediate_reward :=
    if quality_score ≥ cfg.quality_threshold then
      cfg.demcoin_per_hour * cfg.time_cost
    else 0
  let prob_success := 3/10 + participation_rate * (3/5)
  let expected_bonus := prob_success * cfg.success_bonus
  let time_cost_euros := citizen.time_value * cfg.time_cost
  let total_utility := immediate_reward + expected_bonus - time_cost_euros
  total_utility + citizen.civic_interest * 20

/-- calculate_utility_ignore (lines 72-77). -/
def calculate_utility_ignore (cfg : Config) (citizen : Citizen) : ℚ := 0

/-- The inner per-agent loop of one solver iteration (lines 93-103): every
agent is re-classified against the same participation_rate; the net effect
of the in-place updates is exactly this map. -/
def best_responses (cfg : Config) (agents : List Citizen)
    (participation_rate : ℚ) : List Bool :=
  agents.map fun citizen =>
    decide (calculate_utility_study cfg citizen participation_rate >
      calculate_utility_ignore cfg citizen)

/-- sum(participating) (lines 106 and 116). -/
def num_true (part : List Bool) : ℕ := part.count true

/-- Python division: raises (none) on a zero divisor. -/
def pydiv (x y : ℚ) : Option ℚ := if y = 0 then none else some (x / y)

/-- The iteration loop of simulate_one_round (lines 88-113).  fuel is the
number of loop iterations still allowed, iter the number already executed,
rate the current participation_rate and part the current assignment (which
the loop body overwrites before reading).  Returns the final rate, final
assignment and the Python value of iteration + 1 at loop exit. -/
def solveFrom (cfg : Config) (agents : List Citizen) :
    ℕ → ℕ → ℚ → List Bool → Option (ℚ × List Bool × ℕ)
  | 0, iter, rate, part => some (rate, part, iter)
  | fuel + 1, iter, rate, _part =>
    let part := best_responses cfg agents rate
    match pydiv (num_true part : ℚ) (cfg.num_citizens : ℚ) with
    | none => none
    | some new_rate =>
      if |new_rate - rate| < 1/1000 then some (new_rate, part, iter + 1)
      else solveFrom cfg agents fuel (iter + 1) new_rate part

/-- The Round Result dictionary (lines 123-128). -/
structure RoundResult where
  participation_rate : ℚ
  num_participating : ℕ
  avg_quality : ℚ
  converged_iteration : ℕ
deriving DecidableEq

/-- Numerator of the avg_quality computation (lines 117-120): the sum of
skill * 8 over the agents currently marked participate. -/
def quality_sum (agents : List Citizen) (part : List Bool) : ℚ :=
  (((agents.zip part).filter fun cp => cp.2).map fun cp => cp.1.skill * 8).sum

/-- simulate_one_round (lines 79-128). -/
def simulate_one_round (cfg : Config) (agents : List Citizen) :
    Option RoundResult :=
  match solveFrom cfg agents 20 0 0 (List.replicate cfg.num_citizens false) with
  | none => none
  | some (participation_rate, participating, iteration) =>
    let num_participating := num_true participating
    match pydiv (quality_sum agents participating)
        ((max num_participating 1 : ℕ) : ℚ) with
    | none => none
    | some avg_quality =>
      some { participation_rate := participation_rate * 100,
             num_participating := num_participating,
             avg_quality := avg_quality,
             converged_iteration := iteration }

/-- The best_params dictionary built by the optimizer (lines 152-156). -/
structure BestParams where
  demcoin_per_hour : ℚ
  success_bonus : ℚ
  result : RoundResult
deriving DecidableEq

/-- The 16 grid combinations in the iteration order of the two nested
loops of optimize_parameters (lines 138-139). -/
def param_grid : List (ℚ × ℚ) :=
  ([10, 15, 20, 25] : List ℚ).bind fun demcoin_rate =>
    ([50, 100, 150, 200] : List ℚ).map fun bonus => (demcoin_rate, bonus)

/-- The body of the grid search (lines 134-156), threading the mutated
configuration and the running (best_params, best_score) pair; the initial
best_score of minus infinity is modelled by the none state, which any
finite score replaces, exactly as score > -inf is always true. -/
def optimize_loop (agents : List Citizen) :
    List (ℚ × ℚ) → Config → Option (BestParams × ℚ) →
      Option (Option (BestParams × ℚ) × Config)
  | [], cfg, best => some (best, cfg)
  | (demcoin_rate, bonus) :: rest, cfg, best =>
    let cfg := { cfg with demcoin_per_hour := demcoin_rate,
                          success_bonus := bonus }
    match simulate_one_round cfg agents with
    | none => none
    | some result =>
      let cost := (result.num_participating : ℚ) * cfg.time_cost * demcoin_rate
      let score := result.participation_rate * result.avg_quality - cost / 1000
      let best :=
        match best with
        | none => some (⟨demcoin_rate, bonus, result⟩, score)
        | some (bp, best_score) =>
          if score > best_score then some (⟨demcoin_rate, bonus, result⟩, score)
          else some (bp, best_score)
      optimize_loop agents rest cfg best

/-- optimize_parameters (lines 130-158): returns the best_params record and
the configuration as the sweep leaves it. -/
def optimize_parameters (cfg : Config) (agents : List Citizen) :
    Option (Option BestParams × Config) :=
  match optimize_loop agents param_grid cfg none with
  | none => none
  | some (best, cfg) => some (best.map Prod.fst, cfg)

/-- Fraction of agents preferring participation at a given rate: one
best-response pass followed by the rate update (line 106), as a total
function (used only under the assumption num_citizens is nonzero). -/
def response_rate (cfg : Config) (agents : List Citizen) (rate : ℚ) : ℚ :=
  (num_true (best_responses cfg agents rate) : ℚ) / (cfg.num_citizens : ℚ)

/-- The pure sequence of participation rates the solver steps through:
rate_seq 0 = 0 and rate_seq (k+1) is the updated rate after a pass at
rate_seq k. -/
def rate_seq (cfg : Config) (agents : List Citizen) : ℕ → ℚ
  | 0 => 0
  | k + 1 => response_rate cfg agents (rate_seq cfg agents k)

/-- Iteration count at which the loop starting at completed-iteration m
with the given fuel exits, mirroring the stopping rule of lines 109-111. -/
def stop_index_aux (cfg : Config) (agents : List Citizen) : ℕ → ℕ → ℕ
  | 0, m => m
  | fuel + 1, m =>
    if |rate_seq cfg agents (m + 1) - rate_seq cfg agents m| < 1/1000 then m + 1
    else stop_index_aux cfg agents fuel (m + 1)

/-- The iteration count reported by simulate_one_round. -/
def stop_index (cfg : Config) (agents : List Citizen) : ℕ :=
  stop_index_aux cfg agents 20 0

/-- Rate-only view of the solver loop for an abstract update map g. -/
def rate_iter (g : ℚ → ℚ) : ℕ → ℚ → ℚ
  | 0, r => r
  | fuel + 1, r =>
    if |g r - r| < 1/1000 then g r else rate_iter g fuel (g r)

/-- The Round Result the grid search obtains for one combination,
evaluated independently of the loop (total via a dummy default, used only
when num_citizens is nonzero, in which case the simulation succeeds). -/
def grid_round (cfg : Config) (agents : List Citizen) (d b : ℚ) : RoundResult :=
  (simulate_one_round
    { cfg with demcoin_per_hour := d, success_bonus := b } agents).getD
    ⟨0, 0, 0, 0⟩

/-- The score the grid search assigns to one combination (lines 147-148). -/
def grid_score (cfg : Config) (agents : List Citizen) (d b : ℚ) : ℚ :=
  (grid_round cfg agents d b).participation_rate *
      (grid_round cfg agents d b).avg_quality -
    ((grid_round cfg agents d b).num_participating : ℚ) *
      cfg.time_cost * d / 1000

/-- The pure selection underlying the running-best update of the grid
search: keep the incumbent unless the candidate scores strictly higher;
the none start is replaced unconditionally. -/
def pick_best {α : Type} : Option (α × ℚ) → List (α × ℚ) → Option (α × ℚ)
  | best, [] => best
  | none, x :: xs => pick_best (some x) xs
  | some b, x :: xs => pick_best (if x.2 > b.2 then some x else some b) xs

/-- The (best_params, score) pair a grid combination contributes to the
running-best selection. -/
def grid_entry (cfg : Config) (agents : List Citizen) (db : ℚ × ℚ) :
    BestParams × ℚ :=
  (⟨db.1, db.2, grid_round cfg agents db.1 db.2⟩,
    grid_score cfg agents db.1 db.2)

/-- A zero-citizen configuration. -/
def cfg_zero : Config := { num_citizens := 0 }

/-- A one-citizen configuration used for concrete instantiations. -/
def cfg_one : Config := { num_citizens := 1 }

/-- A one-citizen population whose citizen always participates. -/
def agent_one : List Citizen := [⟨0, 1, 1, 1⟩]

/-- A 21-citizen configuration (all other scalars at their defaults). -/
def cfg_c1 : Config := { num_citizens := 21 }

/-- A chain population: citizen 0 participates at rate 0 and citizen i
joins exactly when the rate passes (i - 1/2)/21, so one more citizen joins
on every iteration and the solver runs into the 20-iteration cap. -/
def agents_c1 : List Citizen :=
  (List.range 21).map fun i =>
    if i = 0 then ⟨i, 1, 24, 0⟩ else ⟨i, 1, ((515 + 20 * i : ℕ) : ℚ) / 21, 0⟩

/-- 1001 citizens, success bonus 99.9. -/
def cfg_b1 : Config := { num_citizens := 1001, success_bonus := 999/10 }

/-- 1001 citizens, success bonus 100. -/
def cfg_b2 : Config := { num_citizens := 1001, success_bonus := 100 }

/-- A 1001-citizen population on which a LOWER success bonus yields a much
higher equilibrium rate: under bonus 100 the second step of the solver
moves by only 1/1001 < 0.001, which the tolerance accepts as converged at
rate 5/1001, while under bonus 99.9 the slightly lower trajectory steps
0, 2/1001, 5/1001, 900/1001 and stabilizes at 900/1001.  All traits lie in
the documented ranges (skill 0.5, time values in [10, 50], civic interest
in [0, 1]). -/
def agents_c4 : List Citizen :=
  List.replicate 2 ⟨0, 1/2, 11, 1/5⟩ ++
    (List.replicate 2 ⟨1, 1/2, 10, 1/1000⟩ ++
      (List.replicate 1 ⟨2, 1/2, 1001/100, 1/1000⟩ ++
        (List.replicate 895 ⟨3, 1/2, 1009/100, 1/1000⟩ ++
          List.replicate 101 ⟨4, 1/2, 50, 0⟩)))

/-- Claim C3: for every agent and every participation_rate,
utility_participate returns immediate_reward
+ (0.3 + participation_rate * 0.6) * success_bonus
- time_value * time_cost + civic_interest * 20, where immediate_reward is
demcoin_per_hour * time_cost if skill * 8 >= quality_threshold and 0
otherwise; and utility_ignore returns the constant 0. -/
theorem claim_C3 (cfg : Config) (agent : Citizen) (participation_rate : ℚ) :
    calculate_utility_study cfg agent participation_rate =
      (if agent.skill * 8 ≥ cfg.quality_threshold then
        cfg.demcoin_per_hour * cfg.time_cost else 0) +
      (3/10 + participation_rate * (3/5)) * cfg.success_bonus -
      agent.time_value * cfg.time_cost + agent.civic_interest * 20 ∧
    calculate_utility_ignore cfg agent = 0 :=
  ⟨rfl, rfl⟩

attribute [local semireducible] Rat.mul Rat.add Rat.inv Rat.sub in
/-- Claim C1 counterexample: on a 21-agent chain population the solver hits
the 20-iteration cap; the reported assignment (20 participants) was
computed at the next-to-last rate 19/21, while at the returned equilibrium
rate 20/21 all 21 agents strictly prefer participation, so
num_participating differs from the count evaluated at the returned rate. -/
theorem claim_C1_counterexample :
    simulate_one_round cfg_c1 agents_c1 =
      some { participation_rate := 2000/21, num_participating := 20,
             avg_quality := 8, converged_iteration := 20 } ∧
    num_true (best_responses cfg_c1 agents_c1 ((2000/21 : ℚ) / 100)) = 21 ∧
    (21 : ℕ) ≠ 20 := by
  decide

attribute [local semireducible] Rat.mul Rat.add Rat.inv Rat.sub in
/-- Claim C2 counterexample: with one always-participating agent the
participation_rate field of the Round Result is 100 (it is a percentage),
which does not lie in the interval [0, 1]. -/
theorem claim_C2_counterexample :
    simulate_one_round cfg_one agent_one =
      some { participation_rate := 100, num_participating := 1,
             avg_quality := 8, converged_iteration := 2 } ∧
    ¬ ((100 : ℚ) ≤ 1) := by
  decide

lemma pydiv_of_ne_zero (x y : ℚ) (h : y ≠ 0) : pydiv x y = some (x / y) := by
  simp [pydiv, h]

lemma rate_seq_succ (cfg : Config) (agents : List Citizen) (k : ℕ) :
    rate_seq cfg agents (k + 1) =
      (num_true (best_responses cfg agents (rate_seq cfg agents k)) : ℚ) /
        (cfg.num_citizens : ℚ) := rfl

/-- The solver loop, entered with at least one iteration of fuel at the
m-th point of the pure rate sequence, lands exactly on the rate sequence at
the stop index, with the final assignment computed one step earlier. -/
lemma solveFrom_eq_rate_seq (cfg : Config) (agents : List Citizen)
    (hN : cfg.num_citizens ≠ 0) :
    ∀ fuel m part,
      solveFrom cfg agents (fuel + 1) m (rate_seq cfg agents m) part =
        some (rate_seq cfg agents (stop_index_aux cfg agents (fuel + 1) m),
          best_responses cfg agents
            (rate_seq cfg agents (stop_index_aux cfg agents (fuel + 1) m - 1)),
          stop_index_aux cfg agents (fuel + 1) m) := by
  have hNq : (cfg.num_citizens : ℚ) ≠ 0 := Nat.cast_ne_zero.mpr hN
  intro fuel
  induction fuel with
  | zero =>
    intro m part
    have h1 : pydiv
        (num_true (best_responses cfg agents (rate_seq cfg agents m)) : ℚ)
        (cfg.num_citizens : ℚ) = some (rate_seq cfg agents (m + 1)) := by
      rw [pydiv_of_ne_zero _ _ hNq, rate_seq_succ]
    simp only [solveFrom, h1, stop_index_aux]
    split
    · simp
    · simp [solveFrom]
  | succ fuel ih =>
    intro m part
    have h1 : pydiv
        (num_true (best_responses cfg agents (rate_seq cfg agents m)) : ℚ)
        (cfg.num_citizens : ℚ) = some (rate_seq cfg agents (m + 1)) := by
      rw [pydiv_of_ne_zero _ _ hNq, rate_seq_succ]
    simp only [solveFrom, h1]
    conv_rhs => rw [stop_index_aux]
    split
    · simp
    · exact ih (m + 1) (best_responses cfg agents (rate_seq cfg agents m))

lemma stop_index_aux_bounds (cfg : Config) (agents : List Citizen) :
    ∀ fuel m, m ≤ stop_index_aux cfg agents fuel m ∧
      stop_index_aux cfg agents fuel m ≤ m + fuel := by
  intro fuel
  induction fuel with
  | zero => intro m; simp [stop_index_aux]
  | succ fuel ih =>
    intro m
    simp only [stop_index_aux]
    split
    · omega
    · have := ih (m + 1); omega

lemma succ_le_stop_index_aux (cfg : Config) (agents : List Citizen)
    (fuel m : ℕ) (hf : 0 < fuel) :
    m + 1 ≤ stop_index_aux cfg agents fuel m := by
  cases fuel with
  | zero => omega
  | succ fuel =>
    simp only [stop_index_aux]
    split
    · omega
    · have := (stop_index_aux_bounds cfg agents fuel (m + 1)).1; omega

lemma stop_index_aux_min (cfg : Config) (agents : List Citizen) :
    ∀ fuel m k, m ≤ k → k + 1 < stop_index_aux cfg agents fuel m →
      ¬ (|rate_seq cfg agents (k + 1) - rate_seq cfg agents k| < 1/1000) := by
  intro fuel
  induction fuel with
  | zero =>
    intro m k hmk h
    simp only [stop_index_aux] at h
    exact ((by omega : False)).elim
  | succ fuel ih =>
    intro m k hmk h
    simp only [stop_index_aux] at h
    by_cases htol : |rate_seq cfg agents (m + 1) - rate_seq cfg agents m| < 1/1000
    · rw [if_pos htol] at h
      exact ((by omega : False)).elim
    · rw [if_neg htol] at h
      rcases Nat.eq_or_lt_of_le hmk with heq | hlt
      · subst heq; exact htol
      · exact ih (m + 1) k hlt h

lemma stop_index_aux_tol (cfg : Config) (agents : List Citizen) :
    ∀ fuel m, stop_index_aux cfg agents fuel m < m + fuel →
      |rate_seq cfg agents (stop_index_aux cfg agents fuel m) -
        rate_seq cfg agents (stop_index_aux cfg agents fuel m - 1)| < 1/1000 := by
  intro fuel
  induction fuel with
  | zero =>
    intro m h
    simp only [stop_index_aux] at h
    omega
  | succ fuel ih =>
    intro m h
    simp only [stop_index_aux] at h ⊢
    by_cases htol : |rate_seq cfg agents (m + 1) - rate_seq cfg agents m| < 1/1000
    · rw [if_pos htol] at h ⊢
      simpa using htol
    · rw [if_neg htol] at h ⊢
      exact ih (m + 1) (by omega)

/-- Evaluation of simulate_one_round for a positive population: the Round
Result is exactly the stop-index point of the pure rate sequence, with the
assignment computed at the rate one step earlier. -/
lemma simulate_one_round_eq (cfg : Config) (agents : List Citizen)
    (hN : cfg.num_citizens ≠ 0) :
    simulate_one_round cfg agents =
      some { participation_rate :=
               rate_seq cfg agents (stop_index cfg agents) * 100,
             num_participating :=
               num_true (best_responses cfg agents
                 (rate_seq cfg agents (stop_index cfg agents - 1))),
             avg_quality :=
               quality_sum agents (best_responses cfg agents
                 (rate_seq cfg agents (stop_index cfg agents - 1))) /
               ((max (num_true (best_responses cfg agents
                 (rate_seq cfg agents (stop_index cfg agents - 1)))) 1 : ℕ) : ℚ),
             converged_iteration := stop_index cfg agents } := by
  have hs := solveFrom_eq_rate_seq cfg agents hN 19 0
    (List.replicate cfg.num_citizens false)
  have h0 : rate_seq cfg agents 0 = 0 := rfl
  rw [h0] at hs
  have hmax : ((max (num_true (best_responses cfg agents
      (rate_seq cfg agents (stop_index cfg agents - 1)))) 1 : ℕ) : ℚ) ≠ 0 := by
    have h1 : 0 < max (num_true (best_responses cfg agents
        (rate_seq cfg agents (stop_index cfg agents - 1)))) 1 := by omega
    exact_mod_cast h1.ne'
  have h20 : stop_index cfg agents = stop_index_aux cfg agents (19 + 1) 0 := rfl
  simp only [simulate_one_round, show (20 : ℕ) = 19 + 1 from rfl, hs, h20,
    pydiv_of_ne_zero _ _ (h20 ▸ hmax)]

lemma rate_seq_nonneg (cfg : Config) (agents : List Citizen) :
    ∀ k, 0 ≤ rate_seq cfg agents k
  | 0 => le_refl 0
  | k + 1 => by
    rw [rate_seq_succ]
    exact div_nonneg (Nat.cast_nonneg _) (Nat.cast_nonneg _)

lemma best_responses_length (cfg : Config) (agents : List Citizen) (r : ℚ) :
    (best_responses cfg agents r).length = agents.length := by
  simp [best_responses]

lemma num_true_le_length : ∀ part : List Bool, num_true part ≤ part.length := by
  intro part
  induction part with
  | nil => simp [num_true]
  | cons b bs ih =>
    simp only [num_true, List.count_cons, List.length_cons] at *
    split <;> omega

lemma rate_seq_le_one (cfg : Config) (agents : List Citizen)
    (hN : 0 < cfg.num_citizens) (hlen : agents.length = cfg.num_citizens) :
    ∀ k, rate_seq cfg agents k ≤ 1
  | 0 => zero_le_one
  | k + 1 => by
    rw [rate_seq_succ]
    rw [div_le_one (by exact_mod_cast hN)]
    have h1 := num_true_le_length (best_responses cfg agents (rate_seq cfg agents k))
    rw [best_responses_length, hlen] at h1
    exact_mod_cast h1

lemma quality_sum_nil (part : List Bool) : quality_sum [] part = 0 := by
  simp [quality_sum]

lemma quality_sum_cons (a : Citizen) (ag : List Citizen) (b : Bool)
    (pt : List Bool) :
    quality_sum (a :: ag) (b :: pt) =
      (if b then a.skill * 8 else 0) + quality_sum ag pt := by
  cases b <;> simp [quality_sum, List.filter_cons]

lemma quality_sum_of_num_true_zero :
    ∀ (agents : List Citizen) (part : List Bool), num_true part = 0 →
      quality_sum agents part = 0 := by
  intro agents
  induction agents with
  | nil => intro part _; exact quality_sum_nil part
  | cons a ag ih =>
    intro part hp
    cases part with
    | nil => simp [quality_sum]
    | cons b pt =>
      simp only [num_true, List.count_cons] at hp
      have hb : b = false := by
        cases b
        · rfl
        · simp at hp
      subst hb
      rw [quality_sum_cons, ih pt (by simpa [num_true] using (by omega : pt.count true = 0))]
      simp

/-- Claim C2 (amended): for a positive population whose agent list matches
num_citizens, the participation_rate field of the Round Result is a
percentage lying in [0, 100], so the underlying rate (field / 100) lies in
[0, 1]. -/
theorem claim_C2_amended (cfg : Config) (agents : List Citizen)
    (hN : 0 < cfg.num_citizens) (hlen : agents.length = cfg.num_citizens) :
    ∃ res, simulate_one_round cfg agents = some res ∧
      0 ≤ res.participation_rate ∧ res.participation_rate ≤ 100 ∧
      0 ≤ res.participation_rate / 100 ∧ res.participation_rate / 100 ≤ 1 := by
  refine ⟨_, simulate_one_round_eq cfg agents hN.ne', ?_, ?_, ?_, ?_⟩ <;>
    dsimp only
  · have := rate_seq_nonneg cfg agents (stop_index cfg agents)
    positivity
  · have := rate_seq_le_one cfg agents hN hlen (stop_index cfg agents)
    nlinarith
  · have := rate_seq_nonneg cfg agents (stop_index cfg agents)
    positivity
  · have h1 := rate_seq_le_one cfg agents hN hlen (stop_index cfg agents)
    have h2 := rate_seq_nonneg cfg agents (stop_index cfg agents)
    rw [div_le_one (by norm_num)]
    nlinarith

/-- Claim C1 (amended): for a positive population, num_participating equals
the count of agents whose utility_participate strictly exceeds
utility_ignore evaluated at the rate from which the final decision pass was
computed (the point of the rate sequence one step before the stop index),
and the returned participation_rate is exactly num_participating divided by
num_citizens, as a percentage.  Evaluating the count at the returned rate
itself can disagree, as the counterexample shows. -/
theorem claim_C1_amended (cfg : Config) (agents : List Citizen)
    (hN : 0 < cfg.num_citizens) :
    ∃ res, simulate_one_round cfg agents = some res ∧
      res.num_participating = num_true (best_responses cfg agents
        (rate_seq cfg agents (stop_index cfg agents - 1))) ∧
      res.participation_rate =
        ((res.num_participating : ℚ) / (cfg.num_citizens : ℚ)) * 100 := by
  refine ⟨_, simulate_one_round_eq cfg agents hN.ne', rfl, ?_⟩
  dsimp only
  have hst : 0 < stop_index cfg agents :=
    succ_le_stop_index_aux cfg agents 20 0 (by omega)
  have hrw : stop_index cfg agents = (stop_index cfg agents - 1) + 1 := by omega
  rw [hrw, rate_seq_succ]
  rw [← hrw]

/-- Claim C8: for a positive population the solver always terminates with
a reported iteration count between 1 and 20; the reported rate is the
stop-index point of the pure best-response rate sequence; no earlier
iteration met the 0.001 tolerance; and if the solver stopped before the
20-iteration cap then its last step did meet the tolerance.  When the cap
is reached the last computed rate is returned and no error is signalled
(the result is still some). -/
theorem claim_C8 (cfg : Config) (agents : List Citizen)
    (hN : 0 < cfg.num_citizens) :
    ∃ res, simulate_one_round cfg agents = some res ∧
      res.converged_iteration = stop_index cfg agents ∧
      1 ≤ res.converged_iteration ∧ res.converged_iteration ≤ 20 ∧
      res.participation_rate =
        rate_seq cfg agents res.converged_iteration * 100 ∧
      (∀ k : ℕ, k + 1 < res.converged_iteration →
        ¬ (|rate_seq cfg agents (k + 1) - rate_seq cfg agents k| < 1/1000)) ∧
      (res.converged_iteration < 20 →
        |rate_seq cfg agents res.converged_iteration -
          rate_seq cfg agents (res.converged_iteration - 1)| < 1/1000) := by
  refine ⟨_, simulate_one_round_eq cfg agents hN.ne', rfl, ?_, ?_, rfl, ?_, ?_⟩
  · exact succ_le_stop_index_aux cfg agents 20 0 (by omega)
  · have := (stop_index_aux_bounds cfg agents 20 0).2
    simpa [stop_index] using this
  · intro k hk
    exact stop_index_aux_min cfg agents 20 0 k (Nat.zero_le k) hk
  · intro hlt
    exact stop_index_aux_tol cfg agents 20 0 (by simpa using hlt)

/-- Claim C9: for a positive population, avg_quality is the sum of
skill * 8 over the agents marked participate divided by
max(num_participating, 1); the divisor is at least one, so no division
error can occur, and when nobody participates the average is 0. -/
theorem claim_C9 (cfg : Config) (agents : List Citizen)
    (hN : 0 < cfg.num_citizens) :
    ∃ res part, simulate_one_round cfg agents = some res ∧
      res.num_participating = num_true part ∧
      res.avg_quality =
        quality_sum agents part / ((max (num_true part) 1 : ℕ) : ℚ) ∧
      1 ≤ max (num_true part) 1 ∧
      (res.num_participating = 0 → res.avg_quality = 0) := by
  refine ⟨_, best_responses cfg agents
    (rate_seq cfg agents (stop_index cfg agents - 1)),
    simulate_one_round_eq cfg agents hN.ne', rfl, rfl, le_max_right _ _, ?_⟩
  intro h0
  dsimp only at h0 ⊢
  rw [quality_sum_of_num_true_zero agents _ h0, zero_div]

/-- Claim C7: within one solver iteration the result is independent of the
incoming assignment (every agent is re-classified against the same stale
rate, a simultaneous-move update); agent i's new flag is exactly the
decision utility_participate > utility_ignore at that shared rate; and an
agent whose two utilities are equal is classified as ignore (strict
inequality tie-break). -/
theorem claim_C7 (cfg : Config) (agents : List Citizen) (r : ℚ)
    (fuel iter : ℕ) (part1 part2 : List Bool) (i : ℕ) :
    solveFrom cfg agents (fuel + 1) iter r part1 =
      solveFrom cfg agents (fuel + 1) iter r part2 ∧
    (best_responses cfg agents r)[i]? = (agents[i]?).map
      (fun c => decide (calculate_utility_study cfg c r >
        calculate_utility_ignore cfg c)) ∧
    (∀ c, agents[i]? = some c →
      calculate_utility_study cfg c r = calculate_utility_ignore cfg c →
      (best_responses cfg agents r)[i]? = some false) := by
  refine ⟨rfl, ?_, ?_⟩
  · simp [best_responses]
  · intro c hc heq
    simp only [best_responses, List.getElem?_map, hc, Option.map_some]
    have : ¬ (calculate_utility_study cfg c r >
        calculate_utility_ignore cfg c) := by rw [heq]; exact lt_irrefl _
    simp [this]

/-- Claim C10: the constructor performs no validation: with population size
0 it produces an empty citizen list, and any subsequent call to
simulate_one_round fails with a division-by-zero at the participation-rate
update (modelled as a none result); for every positive population size the
simulation always returns a result, so that division never fails. -/
theorem claim_C10 (traits : ℕ → ℚ × ℚ × ℚ) (cfg : Config)
    (agents : List Citizen) (h0 : cfg.num_citizens = 0)
    (cfg2 : Config) (agents2 : List Citizen) (hpos : 0 < cfg2.num_citizens) :
    build_citizens 0 traits = [] ∧
    simulate_one_round cfg agents = none ∧
    ∃ res, simulate_one_round cfg2 agents2 = some res := by
  refine ⟨by simp [build_citizens], ?_, ⟨_, simulate_one_round_eq cfg2 agents2 hpos.ne'⟩⟩
  have hsolve : solveFrom cfg agents 20 0 0
      (List.replicate cfg.num_citizens false) = none := by
    rw [show (20 : ℕ) = 19 + 1 from rfl]
    simp [solveFrom, pydiv, h0]
  simp [simulate_one_round, hsolve]

lemma best_responses_append (cfg : Config) (l1 l2 : List Citizen) (r : ℚ) :
    best_responses cfg (l1 ++ l2) r =
      best_responses cfg l1 r ++ best_responses cfg l2 r := by
  simp [best_responses]

lemma num_true_append (p1 p2 : List Bool) :
    num_true (p1 ++ p2) = num_true p1 + num_true p2 := by
  simp [num_true, List.count_append]

lemma best_responses_replicate (cfg : Config) (k : ℕ) (c : Citizen)
    (r : ℚ) :
    best_responses cfg (List.replicate k c) r = List.replicate k
      (decide (calculate_utility_study cfg c r >
        calculate_utility_ignore cfg c)) := by
  simp [best_responses]

lemma num_true_replicate (k : ℕ) (b : Bool) :
    num_true (List.replicate k b) = if b = true then k else 0 := by
  cases b
  · simp [num_true, List.count_eq_zero, List.mem_replicate]
  · simp [num_true]

/-- The population agents_c4 has only five distinct trait profiles, so each
best-response count is a sum of five group contributions. -/
lemma count_agents_c4 (cfg : Config) (r : ℚ) :
    num_true (best_responses cfg agents_c4 r) =
      (if calculate_utility_study cfg ⟨0, 1/2, 11, 1/5⟩ r >
          calculate_utility_ignore cfg ⟨0, 1/2, 11, 1/5⟩ then 2 else 0) +
      ((if calculate_utility_study cfg ⟨1, 1/2, 10, 1/1000⟩ r >
          calculate_utility_ignore cfg ⟨1, 1/2, 10, 1/1000⟩ then 2 else 0) +
      ((if calculate_utility_study cfg ⟨2, 1/2, 1001/100, 1/1000⟩ r >
          calculate_utility_ignore cfg ⟨2, 1/2, 1001/100, 1/1000⟩
        then 1 else 0) +
      ((if calculate_utility_study cfg ⟨3, 1/2, 1009/100, 1/1000⟩ r >
          calculate_utility_ignore cfg ⟨3, 1/2, 1009/100, 1/1000⟩
        then 895 else 0) +
      (if calculate_utility_study cfg ⟨4, 1/2, 50, 0⟩ r >
          calculate_utility_ignore cfg ⟨4, 1/2, 50, 0⟩ then 101 else 0)))) := by
  simp only [agents_c4, best_responses_append, num_true_append,
    best_responses_replicate, num_true_replicate, decide_eq_true_eq]

lemma c4_b1_count0 : num_true (best_responses cfg_b1 agents_c4 0) = 2 := by
  rw [count_agents_c4]
  norm_num [calculate_utility_study, calculate_utility_ignore, cfg_b1]

lemma c4_b1_seq1 : rate_seq cfg_b1 agents_c4 1 = 2/1001 := by
  show response_rate cfg_b1 agents_c4 (rate_seq cfg_b1 agents_c4 0) = 2/1001
  rw [show rate_seq cfg_b1 agents_c4 0 = 0 from rfl]
  simp only [response_rate]
  rw [c4_b1_count0]
  norm_num [cfg_b1]

lemma c4_b1_count1 :
    num_true (best_responses cfg_b1 agents_c4 (2/1001)) = 5 := by
  rw [count_agents_c4]
  norm_num [calculate_utility_study, calculate_utility_ignore, cfg_b1]

lemma c4_b1_seq2 : rate_seq cfg_b1 agents_c4 2 = 5/1001 := by
  show response_rate cfg_b1 agents_c4 (rate_seq cfg_b1 agents_c4 1) = 5/1001
  rw [c4_b1_seq1]
  simp only [response_rate]
  rw [c4_b1_count1]
  norm_num [cfg_b1]

lemma c4_b1_count2 :
    num_true (best_responses cfg_b1 agents_c4 (5/1001)) = 900 := by
  rw [count_agents_c4]
  norm_num [calculate_utility_study, calculate_utility_ignore, cfg_b1]

lemma c4_b1_seq3 : rate_seq cfg_b1 agents_c4 3 = 900/1001 := by
  show response_rate cfg_b1 agents_c4 (rate_seq cfg_b1 agents_c4 2) = 900/1001
  rw [c4_b1_seq2]
  simp only [response_rate]
  rw [c4_b1_count2]
  norm_num [cfg_b1]

lemma c4_b1_count3 :
    num_true (best_responses cfg_b1 agents_c4 (900/1001)) = 900 := by
  rw [count_agents_c4]
  norm_num [calculate_utility_study, calculate_utility_ignore, cfg_b1]

lemma c4_b1_seq4 : rate_seq cfg_b1 agents_c4 4 = 900/1001 := by
  show response_rate cfg_b1 agents_c4 (rate_seq cfg_b1 agents_c4 3) = 900/1001
  rw [c4_b1_seq3]
  simp only [response_rate]
  rw [c4_b1_count3]
  norm_num [cfg_b1]

lemma c4_b1_stop : stop_index cfg_b1 agents_c4 = 4 := by
  have h1 : ¬ (|rate_seq cfg_b1 agents_c4 1 - rate_seq cfg_b1 agents_c4 0| <
      1/1000) := by
    rw [c4_b1_seq1, show rate_seq cfg_b1 agents_c4 0 = 0 from rfl, sub_zero,
      abs_of_nonneg (by norm_num : (0:ℚ) ≤ 2/1001)]
    norm_num
  have h2 : ¬ (|rate_seq cfg_b1 agents_c4 2 - rate_seq cfg_b1 agents_c4 1| <
      1/1000) := by
    rw [c4_b1_seq1, c4_b1_seq2,
      abs_of_nonneg (by norm_num : (0:ℚ) ≤ 5/1001 - 2/1001)]
    norm_num
  have h3 : ¬ (|rate_seq cfg_b1 agents_c4 3 - rate_seq cfg_b1 agents_c4 2| <
      1/1000) := by
    rw [c4_b1_seq2, c4_b1_seq3,
      abs_of_nonneg (by norm_num : (0:ℚ) ≤ 900/1001 - 5/1001)]
    norm_num
  have h4 : |rate_seq cfg_b1 agents_c4 4 - rate_seq cfg_b1 agents_c4 3| <
      1/1000 := by
    rw [c4_b1_seq3, c4_b1_seq4, sub_self, abs_zero]
    norm_num
  show (if |rate_seq cfg_b1 agents_c4 1 - rate_seq cfg_b1 agents_c4 0| <
      1/1000 then 1 else stop_index_aux cfg_b1 agents_c4 19 1) = 4
  rw [if_neg h1]
  show (if |rate_seq cfg_b1 agents_c4 2 - rate_seq cfg_b1 agents_c4 1| <
      1/1000 then 2 else stop_index_aux cfg_b1 agents_c4 18 2) = 4
  rw [if_neg h2]
  show (if |rate_seq cfg_b1 agents_c4 3 - rate_seq cfg_b1 agents_c4 2| <
      1/1000 then 3 else stop_index_aux cfg_b1 agents_c4 17 3) = 4
  rw [if_neg h3]
  show (if |rate_seq cfg_b1 agents_c4 4 - rate_seq cfg_b1 agents_c4 3| <
      1/1000 then 4 else stop_index_aux cfg_b1 agents_c4 16 4) = 4
  rw [if_pos h4]

lemma c4_b2_count0 : num_true (best_responses cfg_b2 agents_c4 0) = 4 := by
  rw [count_agents_c4]
  norm_num [calculate_utility_study, calculate_utility_ignore, cfg_b2]

lemma c4_b2_seq1 : rate_seq cfg_b2 agents_c4 1 = 4/1001 := by
  show response_rate cfg_b2 agents_c4 (rate_seq cfg_b2 agents_c4 0) = 4/1001
  rw [show rate_seq cfg_b2 agents_c4 0 = 0 from rfl]
  simp only [response_rate]
  rw [c4_b2_count0]
  norm_num [cfg_b2]

lemma c4_b2_count1 :
    num_true (best_responses cfg_b2 agents_c4 (4/1001)) = 5 := by
  rw [count_agents_c4]
  norm_num [calculate_utility_study, calculate_utility_ignore, cfg_b2]

lemma c4_b2_seq2 : rate_seq cfg_b2 agents_c4 2 = 5/1001 := by
  show response_rate cfg_b2 agents_c4 (rate_seq cfg_b2 agents_c4 1) = 5/1001
  rw [c4_b2_seq1]
  simp only [response_rate]
  rw [c4_b2_count1]
  norm_num [cfg_b2]

lemma c4_b2_stop : stop_index cfg_b2 agents_c4 = 2 := by
  have h1 : ¬ (|rate_seq cfg_b2 agents_c4 1 - rate_seq cfg_b2 agents_c4 0| <
      1/1000) := by
    rw [c4_b2_seq1, show rate_seq cfg_b2 agents_c4 0 = 0 from rfl, sub_zero,
      abs_of_nonneg (by norm_num : (0:ℚ) ≤ 4/1001)]
    norm_num
  have h2 : |rate_seq cfg_b2 agents_c4 2 - rate_seq cfg_b2 agents_c4 1| <
      1/1000 := by
    rw [c4_b2_seq1, c4_b2_seq2,
      abs_of_nonneg (by norm_num : (0:ℚ) ≤ 5/1001 - 4/1001)]
    norm_num
  show (if |rate_seq cfg_b2 agents_c4 1 - rate_seq cfg_b2 agents_c4 0| <
      1/1000 then 1 else stop_index_aux cfg_b2 agents_c4 19 1) = 2
  rw [if_neg h1]
  show (if |rate_seq cfg_b2 agents_c4 2 - rate_seq cfg_b2 agents_c4 1| <
      1/1000 then 2 else stop_index_aux cfg_b2 agents_c4 18 2) = 2
  rw [if_pos h2]

/-- Claim C4 counterexample: with 1001 agents and all other configuration
scalars equal, lowering success_bonus from 100 to 99.9 RAISES the
equilibrium participation rate from 500/1001 percent to 90000/1001
percent, because under the higher bonus the solver stops on a 1/1001 step
that is below the 0.001 tolerance, while the lower-bonus trajectory steps
past that trap point and keeps climbing. -/
theorem claim_C4_counterexample :
    (simulate_one_round cfg_b1 agents_c4).map RoundResult.participation_rate =
      some (90000/1001) ∧
    (simulate_one_round cfg_b2 agents_c4).map RoundResult.participation_rate =
      some (500/1001) ∧
    cfg_b1.success_bonus ≤ cfg_b2.success_bonus ∧
    cfg_b1.demcoin_per_hour = cfg_b2.demcoin_per_hour ∧
    cfg_b1.time_cost = cfg_b2.time_cost ∧
    cfg_b1.quality_threshold = cfg_b2.quality_threshold ∧
    cfg_b1.num_citizens = cfg_b2.num_citizens ∧
    ¬ ((90000 : ℚ)/1001 ≤ (500 : ℚ)/1001) := by
  refine ⟨?_, ?_, by norm_num [cfg_b1, cfg_b2], rfl, rfl, rfl, rfl,
    by norm_num⟩
  · rw [simulate_one_round_eq cfg_b1 agents_c4 (by norm_num [cfg_b1])]
    rw [c4_b1_stop, c4_b1_seq4]
    norm_num
  · rw [simulate_one_round_eq cfg_b2 agents_c4 (by norm_num [cfg_b2])]
    rw [c4_b2_stop, c4_b2_seq2]
    norm_num

attribute [local semireducible] Rat.mul Rat.add Rat.inv Rat.sub in
/-- Claim C5 counterexample: after the optimization sweep the configuration
holds demcoin_per_hour 25 and success_bonus 200 (the last grid values
tried), not the values 15 and 100 it held before the sweep. -/
theorem claim_C5_counterexample :
    (optimize_parameters cfg_one agent_one).map
      (fun st => st.2.demcoin_per_hour) = some 25 ∧
    (optimize_parameters cfg_one agent_one).map
      (fun st => st.2.success_bonus) = some 200 ∧
    cfg_one.demcoin_per_hour = 15 ∧ cfg_one.success_bonus = 100 ∧
    ((25 : ℚ) ≠ 15) ∧ ((200 : ℚ) ≠ 100) := by
  decide

lemma optimize_loop_config (agents : List Citizen) :
    ∀ (l : List (ℚ × ℚ)) (cfg : Config) (best : Option (BestParams × ℚ))
      (res : Option (BestParams × ℚ) × Config),
      optimize_loop agents l cfg best = some res →
      res.2 = l.foldl (fun c db =>
        { c with demcoin_per_hour := db.1, success_bonus := db.2 }) cfg := by
  intro l
  induction l with
  | nil =>
    intro cfg best res h
    simp only [optimize_loop, Option.some.injEq] at h
    rw [← h]
    rfl
  | cons db rest ih =>
    intro cfg best res h
    obtain ⟨d, b⟩ := db
    simp only [optimize_loop] at h
    cases hsim : simulate_one_round
        { cfg with demcoin_per_hour := d, success_bonus := b } agents with
    | none => rw [hsim] at h; exact absurd h (by simp)
    | some r =>
      rw [hsim] at h
      simpa [List.foldl] using ih _ _ _ h

/-- Claim C5 (amended): whenever the optimization sweep returns, it leaves
the configuration holding the LAST grid combination tried, demcoin_per_hour
25 and success_bonus 200, regardless of the values held before the sweep;
time_cost, quality_threshold and num_citizens are unchanged.  The sweep
does not restore the pre-sweep demcoin_per_hour and success_bonus. -/
theorem claim_C5_amended (cfg : Config) (agents : List Citizen) :
    (optimize_parameters cfg agents).map (fun st =>
      (st.2.demcoin_per_hour, st.2.success_bonus, st.2.time_cost,
        st.2.quality_threshold, st.2.num_citizens)) =
    (optimize_parameters cfg agents).map (fun _ =>
      ((25 : ℚ), (200 : ℚ), cfg.time_cost, cfg.quality_threshold,
        cfg.num_citizens)) := by
  unfold optimize_parameters
  cases hopt : optimize_loop agents param_grid cfg none with
  | none => rfl
  | some res =>
    obtain ⟨bestr, cfgr⟩ := res
    have h2 := optimize_loop_config agents param_grid cfg none
      (bestr, cfgr) hopt
    have h4 : List.foldl (fun c db =>
        { c with demcoin_per_hour := db.1, success_bonus := db.2 })
        cfg param_grid =
        { cfg with demcoin_per_hour := 25, success_bonus := 200 } := by
      simp [param_grid]
    have h3 : cfgr = { cfg with demcoin_per_hour := 25, success_bonus := 200 } :=
      h2.trans h4
    subst h3
    simp

lemma rate_iter_eq_rate_seq (cfg : Config) (agents : List Citizen) :
    ∀ fuel m, rate_iter (response_rate cfg agents) fuel
        (rate_seq cfg agents m) =
      rate_seq cfg agents (stop_index_aux cfg agents fuel m) := by
  intro fuel
  induction fuel with
  | zero => intro m; simp [rate_iter, stop_index_aux]
  | succ fuel ih =>
    intro m
    have hg : response_rate cfg agents (rate_seq cfg agents m) =
        rate_seq cfg agents (m + 1) := rfl
    simp only [rate_iter, stop_index_aux, hg]
    by_cases htol : |rate_seq cfg agents (m + 1) - rate_seq cfg agents m| <
        1/1000
    · rw [if_pos htol, if_pos htol]
    · rw [if_neg htol, if_neg htol]
      exact ih (m + 1)

lemma rate_iter_le_fixpoint (g1 g2 : ℚ → ℚ)
    (hle : ∀ r, 0 ≤ r → g1 r ≤ g2 r)
    (hmono2 : ∀ a b, a ≤ b → g2 a ≤ g2 b)
    (hnn1 : ∀ r, 0 ≤ r → 0 ≤ g1 r)
    (rs : ℚ) (hfix : g2 rs = rs) :
    ∀ fuel r, 0 ≤ r → r ≤ rs → rate_iter g1 fuel r ≤ rs := by
  intro fuel
  induction fuel with
  | zero => intro r h0 hrs; simpa [rate_iter] using hrs
  | succ fuel ih =>
    intro r h0 hrs
    have hg1 : g1 r ≤ rs := by
      calc g1 r ≤ g2 r := hle r h0
      _ ≤ g2 rs := hmono2 r rs hrs
      _ = rs := hfix
    simp only [rate_iter]
    split
    · exact hg1
    · exact ih (g1 r) (hnn1 r h0) hg1

lemma le_rate_iter_self (g : ℚ → ℚ)
    (hmono : ∀ a b, a ≤ b → g a ≤ g b) :
    ∀ fuel r, r ≤ g r → r ≤ rate_iter g fuel r := by
  intro fuel
  induction fuel with
  | zero => intro r h; simp [rate_iter]
  | succ fuel ih =>
    intro r h
    simp only [rate_iter]
    split
    · exact h
    · exact le_trans h (ih (g r) (hmono r (g r) h))

/-- On the grid of multiples of 1/N with N at most 1000, a step below the
0.001 tolerance is an exact fixed point. -/
lemma rat_grid_eq (N : ℕ) (hN : N ≠ 0) (hcap : N ≤ 1000) (j k : ℕ)
    (h : |(k : ℚ)/(N : ℚ) - (j : ℚ)/(N : ℚ)| < 1/1000) :
    (k : ℚ)/(N : ℚ) = (j : ℚ)/(N : ℚ) := by
  have hNq : (0 : ℚ) < (N : ℚ) := by
    exact_mod_cast Nat.pos_of_ne_zero hN
  have hkj : |(k : ℚ) - (j : ℚ)| < (N : ℚ)/1000 := by
    rw [div_sub_div_same, abs_div, abs_of_pos hNq, div_lt_iff hNq] at h
    calc |(k : ℚ) - (j : ℚ)| < 1/1000 * (N : ℚ) := h
    _ = (N : ℚ)/1000 := by ring
  have hN1 : (N : ℚ)/1000 ≤ 1 := by
    rw [div_le_one (by norm_num)]
    exact_mod_cast hcap
  have habs : |(k : ℚ) - (j : ℚ)| < 1 := lt_of_lt_of_le hkj hN1
  have hkj2 : k = j := by
    by_contra hne
    have h1 : 1 ≤ |(k : ℤ) - (j : ℤ)| := by
      have : (k : ℤ) - (j : ℤ) ≠ 0 := by
        intro hd; exact hne (by omega)
      exact Int.one_le_abs (by omega)
    have h2 : (1 : ℚ) ≤ |(k : ℚ) - (j : ℚ)| := by
      have := h1
      push_cast at this ⊢
      exact_mod_cast this
    linarith
  rw [hkj2]

/-- Monotonicity of the capped, tolerance-stopped iteration: if g1 is
pointwise below the monotone map g2 whose values lie on the 1/N grid with
N at most 1000, then the loop value under g1 never exceeds the loop value
under g2. -/
lemma rate_iter_mono (N : ℕ) (hN : N ≠ 0) (hcap : N ≤ 1000) (g1 g2 : ℚ → ℚ)
    (hnn1 : ∀ r, 0 ≤ r → 0 ≤ g1 r)
    (hle : ∀ r, 0 ≤ r → g1 r ≤ g2 r)
    (hmono2 : ∀ a b, a ≤ b → g2 a ≤ g2 b)
    (hval2 : ∀ r, ∃ k : ℕ, g2 r = (k : ℚ) / (N : ℚ)) :
    ∀ fuel r1 r2, 0 ≤ r1 → r1 ≤ r2 → (∃ j : ℕ, r2 = (j : ℚ) / (N : ℚ)) →
      r2 ≤ g2 r2 → rate_iter g1 fuel r1 ≤ rate_iter g2 fuel r2 := by
  intro fuel
  induction fuel with
  | zero => intro r1 r2 h0 h12 _ _; simpa [rate_iter] using h12
  | succ fuel ih =>
    intro r1 r2 h01 h12 hgrid hexp
    have hnew : g1 r1 ≤ g2 r2 := le_trans (hle r1 h01) (hmono2 r1 r2 h12)
    simp only [rate_iter]
    by_cases hs1 : |g1 r1 - r1| < 1/1000 <;>
      by_cases hs2 : |g2 r2 - r2| < 1/1000
    · rw [if_pos hs1, if_pos hs2]; exact hnew
    · rw [if_pos hs1, if_neg hs2]
      have hexp2 : g2 r2 ≤ g2 (g2 r2) := hmono2 _ _ hexp
      exact le_trans hnew (le_rate_iter_self g2 hmono2 fuel (g2 r2) hexp2)
    · rw [if_neg hs1, if_pos hs2]
      obtain ⟨j, hj⟩ := hgrid
      obtain ⟨k, hk⟩ := hval2 r2
      have hfix : g2 r2 = r2 := by
        rw [hk, hj]
        exact rat_grid_eq N hN hcap j k (by rw [← hk, ← hj]; exact hs2)
      rw [hfix]
      exact rate_iter_le_fixpoint g1 g2 hle hmono2 hnn1 r2 hfix fuel (g1 r1)
        (hnn1 r1 h01) (le_trans hnew (le_of_eq hfix))
    · rw [if_neg hs1, if_neg hs2]
      exact ih (g1 r1) (g2 r2) (hnn1 r1 h01) hnew (hval2 r2)
        (hmono2 _ _ hexp)

lemma utility_mono_rate (cfg : Config) (c : Citizen)
    (hb : 0 ≤ cfg.success_bonus) {r s : ℚ} (hrs : r ≤ s) :
    calculate_utility_study cfg c r ≤ calculate_utility_study cfg c s := by
  simp only [calculate_utility_study]
  have h1 : (3/10 + r * (3/5)) * cfg.success_bonus ≤
      (3/10 + s * (3/5)) * cfg.success_bonus :=
    mul_le_mul_of_nonneg_right (by linarith) hb
  linarith

lemma utility_mono_bonus (cfg : Config) (b1 b2 : ℚ) (c : Citizen) (r : ℚ)
    (hr : 0 ≤ r) (hb : b1 ≤ b2) :
    calculate_utility_study { cfg with success_bonus := b1 } c r ≤
      calculate_utility_study { cfg with success_bonus := b2 } c r := by
  simp only [calculate_utility_study]
  have h1 : (3/10 + r * (3/5)) * b1 ≤ (3/10 + r * (3/5)) * b2 :=
    mul_le_mul_of_nonneg_left hb (by linarith)
  split_ifs <;> linarith

lemma num_true_mono (l : List Citizen) (f g : Citizen → Bool)
    (h : ∀ c, f c = true → g c = true) :
    num_true (l.map f) ≤ num_true (l.map g) := by
  induction l with
  | nil => simp [num_true]
  | cons a t ih =>
    simp only [List.map_cons, num_true, List.count_cons] at *
    have ha := h a
    cases hfa : f a <;> cases hga : g a <;> simp_all <;> omega

lemma response_count_mono_rate (cfg : Config) (agents : List Citizen)
    (hb : 0 ≤ cfg.success_bonus) {r s : ℚ} (hrs : r ≤ s) :
    num_true (best_responses cfg agents r) ≤
      num_true (best_responses cfg agents s) := by
  apply num_true_mono
  intro c hc
  have hc2 : calculate_utility_ignore cfg c <
      calculate_utility_study cfg c r := of_decide_eq_true hc
  exact decide_eq_true
    (lt_of_lt_of_le hc2 (utility_mono_rate cfg c hb hrs))

lemma response_count_mono_bonus (cfg : Config) (agents : List Citizen)
    (b1 b2 : ℚ) (r : ℚ) (hr : 0 ≤ r) (hb : b1 ≤ b2) :
    num_true (best_responses { cfg with success_bonus := b1 } agents r) ≤
      num_true (best_responses { cfg with success_bonus := b2 } agents r) := by
  apply num_true_mono
  intro c hc
  have hc2 : calculate_utility_ignore
        { cfg with success_bonus := b1 } c <
      calculate_utility_study { cfg with success_bonus := b1 } c r :=
    of_decide_eq_true hc
  have hle := utility_mono_bonus cfg b1 b2 c r hr hb
  exact decide_eq_true (lt_of_lt_of_le hc2 hle)

/-- Claim C4 (amended): holding the agent population, demcoin_per_hour,
time_cost and quality_threshold fixed, for populations of at most 1000
agents (where the 0.001 tolerance can only be met by an exact fixed point
of the best-response map) and nonnegative bonuses b1 <= b2, the
equilibrium participation rate reported under b2 is at least the one
reported under b1.  For more than 1000 agents the claim fails, as the
counterexample shows. -/
theorem claim_C4_amended (cfg : Config) (agents : List Citizen) (b1 b2 : ℚ)
    (hb0 : 0 ≤ b1) (hb : b1 ≤ b2) (hN : 0 < cfg.num_citizens)
    (hcap : cfg.num_citizens ≤ 1000) (r1 r2 : RoundResult)
    (h1 : simulate_one_round { cfg with success_bonus := b1 } agents = some r1)
    (h2 : simulate_one_round { cfg with success_bonus := b2 } agents = some r2) :
    r1.participation_rate ≤ r2.participation_rate := by
  have hb2 : 0 ≤ b2 := le_trans hb0 hb
  have e1 := simulate_one_round_eq { cfg with success_bonus := b1 } agents
    (by simpa using hN.ne')
  have e2 := simulate_one_round_eq { cfg with success_bonus := b2 } agents
    (by simpa using hN.ne')
  rw [h1, Option.some.injEq] at e1
  rw [h2, Option.some.injEq] at e2
  have hr1 : r1.participation_rate =
      rate_seq { cfg with success_bonus := b1 } agents
        (stop_index { cfg with success_bonus := b1 } agents) * 100 := by
    rw [e1]
  have hr2 : r2.participation_rate =
      rate_seq { cfg with success_bonus := b2 } agents
        (stop_index { cfg with success_bonus := b2 } agents) * 100 := by
    rw [e2]
  have hi1 : rate_seq { cfg with success_bonus := b1 } agents
      (stop_index { cfg with success_bonus := b1 } agents) =
      rate_iter (response_rate { cfg with success_bonus := b1 } agents) 20 0 := by
    have h := rate_iter_eq_rate_seq { cfg with success_bonus := b1 } agents 20 0
    simp only [stop_index]
    rw [← h]
    rfl
  have hi2 : rate_seq { cfg with success_bonus := b2 } agents
      (stop_index { cfg with success_bonus := b2 } agents) =
      rate_iter (response_rate { cfg with success_bonus := b2 } agents) 20 0 := by
    have h := rate_iter_eq_rate_seq { cfg with success_bonus := b2 } agents 20 0
    simp only [stop_index]
    rw [← h]
    rfl
  have hNq : (0 : ℚ) < (cfg.num_citizens : ℚ) := by exact_mod_cast hN
  have hle12 : ∀ r : ℚ, 0 ≤ r →
      response_rate { cfg with success_bonus := b1 } agents r ≤
        response_rate { cfg with success_bonus := b2 } agents r := by
    intro r hr
    simp only [response_rate]
    rw [div_le_div_iff_of_pos_right hNq]
    exact_mod_cast response_count_mono_bonus cfg agents b1 b2 r hr hb
  have hmono2 : ∀ a b : ℚ, a ≤ b →
      response_rate { cfg with success_bonus := b2 } agents a ≤
        response_rate { cfg with success_bonus := b2 } agents b := by
    intro a b hab
    simp only [response_rate]
    rw [div_le_div_iff_of_pos_right hNq]
    exact_mod_cast response_count_mono_rate
      { cfg with success_bonus := b2 } agents (by simpa using hb2) hab
  have hmain : rate_iter (response_rate { cfg with success_bonus := b1 } agents)
      20 0 ≤
      rate_iter (response_rate { cfg with success_bonus := b2 } agents) 20 0 := by
    apply rate_iter_mono cfg.num_citizens hN.ne' hcap _ _
      (fun r _ => div_nonneg (Nat.cast_nonneg _) (Nat.cast_nonneg _))
      hle12 hmono2
      (fun r => ⟨num_true (best_responses
        { cfg with success_bonus := b2 } agents r), rfl⟩)
      20 0 0 (le_refl 0) (le_refl 0) ⟨0, by simp⟩
      (div_nonneg (Nat.cast_nonneg _) (Nat.cast_nonneg _))
  rw [hr1, hr2, hi1, hi2]
  nlinarith [hmain]

lemma simulate_grid (cfg : Config) (agents : List Citizen)
    (hN : cfg.num_citizens ≠ 0) (d b : ℚ) :
    simulate_one_round { cfg with demcoin_per_hour := d, success_bonus := b }
      agents = some (grid_round cfg agents d b) := by
  have h := simulate_one_round_eq
    { cfg with demcoin_per_hour := d, success_bonus := b } agents
    (by simpa using hN)
  rw [h]
  simp only [grid_round, h, Option.getD_some]

lemma pick_best_some_spec {α β : Type} (f : β → α × ℚ) :
    ∀ (l : List β) (b : α × ℚ),
      ∃ r, pick_best (some b) (l.map f) = some r ∧
        ((r = b ∧ ∀ e ∈ l, (f e).2 ≤ b.2) ∨
         (∃ l1 db l2, l = l1 ++ db :: l2 ∧ r = f db ∧ b.2 < r.2 ∧
           (∀ e ∈ l1, (f e).2 < r.2) ∧ (∀ e ∈ l2, (f e).2 ≤ r.2))) := by
  intro l
  induction l with
  | nil =>
    intro b
    exact ⟨b, rfl, Or.inl ⟨rfl, by simp⟩⟩
  | cons x xs ih =>
    intro b
    by_cases hx : (f x).2 > b.2
    · obtain ⟨r, hr, hcase⟩ := ih (f x)
      refine ⟨r, ?_, ?_⟩
      · simp only [List.map_cons, pick_best]
        rw [if_pos hx]
        exact hr
      · rcases hcase with ⟨rfl, hall⟩ | ⟨l1, db, l2, hsplit, hrdb, hlt, hl1, hl2⟩
        · exact Or.inr ⟨[], x, xs, rfl, rfl, hx, by simp, hall⟩
        · subst hsplit
          refine Or.inr ⟨x :: l1, db, l2, rfl, hrdb, lt_trans hx hlt, ?_, hl2⟩
          intro e he
          rcases List.mem_cons.mp he with rfl | he2
          · exact hlt
          · exact hl1 e he2
    · have hxle : (f x).2 ≤ b.2 := le_of_not_lt hx
      obtain ⟨r, hr, hcase⟩ := ih b
      refine ⟨r, ?_, ?_⟩
      · simp only [List.map_cons, pick_best]
        rw [if_neg hx]
        exact hr
      · rcases hcase with ⟨rfl, hall⟩ | ⟨l1, db, l2, hsplit, hrdb, hlt, hl1, hl2⟩
        · refine Or.inl ⟨rfl, ?_⟩
          intro e he
          rcases List.mem_cons.mp he with rfl | he2
          · exact hxle
          · exact hall e he2
        · subst hsplit
          refine Or.inr ⟨x :: l1, db, l2, rfl, hrdb, hlt, ?_, hl2⟩
          intro e he
          rcases List.mem_cons.mp he with rfl | he2
          · exact lt_of_le_of_lt hxle hlt
          · exact hl1 e he2

lemma pick_best_none_spec {α β : Type} (f : β → α × ℚ) (x : β)
    (xs : List β) :
    ∃ l1 db l2, (x :: xs) = l1 ++ db :: l2 ∧
      pick_best none ((x :: xs).map f) = some (f db) ∧
      (∀ e ∈ l1, (f e).2 < (f db).2) ∧ (∀ e ∈ l2, (f e).2 ≤ (f db).2) := by
  have h0 : pick_best (none : Option (α × ℚ)) ((x :: xs).map f) =
      pick_best (some (f x)) (xs.map f) := by
    simp only [List.map_cons, pick_best]
  obtain ⟨r, hr, hcase⟩ := pick_best_some_spec f xs (f x)
  rcases hcase with ⟨rfl, hall⟩ | ⟨l1, db, l2, hsplit, hrdb, hlt, hl1, hl2⟩
  · exact ⟨[], x, xs, rfl, by rw [h0, hr], by simp, hall⟩
  · subst hsplit
    subst hrdb
    refine ⟨x :: l1, db, l2, rfl, by rw [h0, hr], ?_, hl2⟩
    intro e he
    rcases List.mem_cons.mp he with rfl | he2
    · exact hlt
    · exact hl1 e he2

/-- The grid-search loop started from a configuration agreeing with cfg0
off the swept fields computes exactly the pure first-strict-maximum
selection over the independently evaluated grid entries. -/
lemma optimize_loop_eq_pick (cfg0 : Config) (agents : List Citizen)
    (hN : cfg0.num_citizens ≠ 0) :
    ∀ (l : List (ℚ × ℚ)) (cfg : Config) (best : Option (BestParams × ℚ)),
      cfg.num_citizens = cfg0.num_citizens →
      cfg.time_cost = cfg0.time_cost →
      cfg.quality_threshold = cfg0.quality_threshold →
      ∃ cfgF, optimize_loop agents l cfg best =
        some (pick_best best (l.map (grid_entry cfg0 agents)), cfgF) := by
  intro l
  induction l with
  | nil =>
    intro cfg best h1 h2 h3
    cases best <;> exact ⟨cfg, rfl⟩
  | cons db rest ih =>
    intro cfg best h1 h2 h3
    obtain ⟨d, b⟩ := db
    have hcfg : { cfg with demcoin_per_hour := d, success_bonus := b } =
        { cfg0 with demcoin_per_hour := d, success_bonus := b } := by
      cases cfg
      cases cfg0
      simp_all
    cases best with
    | none =>
      simp only [optimize_loop]
      rw [hcfg, h2]
      simp only [simulate_grid cfg0 agents hN d b, List.map_cons]
      exact ih { cfg0 with demcoin_per_hour := d, success_bonus := b }
        (some (grid_entry cfg0 agents (d, b))) rfl rfl rfl
    | some bp =>
      obtain ⟨bpv, bscore⟩ := bp
      simp only [optimize_loop]
      rw [hcfg, h2]
      simp only [simulate_grid cfg0 agents hN d b, List.map_cons]
      exact ih { cfg0 with demcoin_per_hour := d, success_bonus := b }
        (if grid_score cfg0 agents d b > bscore then
          some (grid_entry cfg0 agents (d, b)) else some (bpv, bscore))
        rfl rfl rfl

/-- Claim C6: for a positive population the grid search returns exactly one
record; its demcoin_per_hour and success_bonus come from the 4 x 4 grid;
its Round Result is the one its own combination produces when evaluated
independently; its score is greater than or equal to the score of every
one of the 16 combinations; and every combination tried before it in
iteration order scores strictly below it (first-seen wins on ties). -/
theorem claim_C6 (cfg : Config) (agents : List Citizen)
    (hN : 0 < cfg.num_citizens) :
    ∃ bp cfgF l1 l2, optimize_parameters cfg agents = some (some bp, cfgF) ∧
      param_grid = l1 ++ (bp.demcoin_per_hour, bp.success_bonus) :: l2 ∧
      bp.demcoin_per_hour ∈ ([10, 15, 20, 25] : List ℚ) ∧
      bp.success_bonus ∈ ([50, 100, 150, 200] : List ℚ) ∧
      bp.result = grid_round cfg agents bp.demcoin_per_hour bp.success_bonus ∧
      (∀ p ∈ param_grid, grid_score cfg agents p.1 p.2 ≤
        grid_score cfg agents bp.demcoin_per_hour bp.success_bonus) ∧
      (∀ p ∈ l1, grid_score cfg agents p.1 p.2 <
        grid_score cfg agents bp.demcoin_per_hour bp.success_bonus) := by
  obtain ⟨cfgF, hF⟩ :=
    optimize_loop_eq_pick cfg agents hN.ne' param_grid cfg none rfl rfl rfl
  cases hpg : param_grid with
  | nil => exact absurd hpg (by decide)
  | cons x xs =>
    obtain ⟨l1, db, l2, hsplit, hpick, hl1, hl2⟩ :=
      pick_best_none_spec (grid_entry cfg agents) x xs
    rw [← hpg] at hpick
    rw [hpick] at hF
    have hmem : db ∈ param_grid := by
      rw [hpg, hsplit]
      exact List.mem_append.mpr (Or.inr (List.mem_cons_self db l2))
    have hgridmem : ∀ p ∈ param_grid, p.1 ∈ ([10, 15, 20, 25] : List ℚ) ∧
        p.2 ∈ ([50, 100, 150, 200] : List ℚ) := by decide
    refine ⟨⟨db.1, db.2, grid_round cfg agents db.1 db.2⟩, cfgF, l1, l2,
      ?_, ?_, (hgridmem db hmem).1, (hgridmem db hmem).2, rfl, ?_, ?_⟩
    · simp [optimize_parameters, hF, grid_entry]
    · exact hsplit
    · intro p hp
      rw [hsplit] at hp
      rcases List.mem_append.mp hp with h | h
      · exact le_of_lt (by simpa [grid_entry] using hl1 p h)
      · rcases List.mem_cons.mp h with rfl | h2
        · exact le_refl _
        · simpa [grid_entry] using hl2 p h2
    · intro p hp
      simpa [grid_entry] using hl1 p hp

/-- Witness for claim C1 (amended) at a concrete one-citizen instance. -/
theorem claim_C1_amended_witness :
    ∃ res, simulate_one_round cfg_one agent_one = some res ∧
      res.num_participating = num_true (best_responses cfg_one agent_one
        (rate_seq cfg_one agent_one (stop_index cfg_one agent_one - 1))) ∧
      res.participation_rate =
        ((res.num_participating : ℚ) / (cfg_one.num_citizens : ℚ)) * 100 :=
  claim_C1_amended cfg_one agent_one (by decide)

/-- Witness for claim C2 (amended) at a concrete one-citizen instance. -/
theorem claim_C2_amended_witness :
    ∃ res, simulate_one_round cfg_one agent_one = some res ∧
      0 ≤ res.participation_rate ∧ res.participation_rate ≤ 100 ∧
      0 ≤ res.participation_rate / 100 ∧ res.participation_rate / 100 ≤ 1 :=
  claim_C2_amended cfg_one agent_one (by decide) (by decide)

attribute [local semireducible] Rat.mul Rat.add Rat.inv Rat.sub in
/-- Witness for claim C4 (amended) at a concrete one-citizen instance with
bonuses 50 and 100. -/
theorem claim_C4_amended_witness :
    (⟨100, 1, 8, 2⟩ : RoundResult).participation_rate ≤
      (⟨100, 1, 8, 2⟩ : RoundResult).participation_rate :=
  claim_C4_amended cfg_one agent_one 50 100 (by norm_num) (by norm_num)
    (by decide) (by decide) ⟨100, 1, 8, 2⟩ ⟨100, 1, 8, 2⟩
    (by decide) (by decide)

/-- Witness for claim C6 at a concrete one-citizen instance. -/
theorem claim_C6_witness :
    ∃ bp cfgF l1 l2,
      optimize_parameters cfg_one agent_one = some (some bp, cfgF) ∧
      param_grid = l1 ++ (bp.demcoin_per_hour, bp.success_bonus) :: l2 ∧
      bp.demcoin_per_hour ∈ ([10, 15, 20, 25] : List ℚ) ∧
      bp.success_bonus ∈ ([50, 100, 150, 200] : List ℚ) ∧
      bp.result =
        grid_round cfg_one agent_one bp.demcoin_per_hour bp.success_bonus ∧
      (∀ p ∈ param_grid, grid_score cfg_one agent_one p.1 p.2 ≤
        grid_score cfg_one agent_one bp.demcoin_per_hour bp.success_bonus) ∧
      (∀ p ∈ l1, grid_score cfg_one agent_one p.1 p.2 <
        grid_score cfg_one agent_one bp.demcoin_per_hour bp.success_bonus) :=
  claim_C6 cfg_one agent_one (by decide)

/-- Witness for claim C7 at a concrete instance, with two different
incoming assignments and an index into the population. -/
theorem claim_C7_witness :
    solveFrom cfg_one agent_one 1 0 0 [] =
      solveFrom cfg_one agent_one 1 0 0 [true] ∧
    (best_responses cfg_one agent_one 0)[0]? = (agent_one[0]?).map
      (fun c => decide (calculate_utility_study cfg_one c 0 >
        calculate_utility_ignore cfg_one c)) ∧
    (∀ c, agent_one[0]? = some c →
      calculate_utility_study cfg_one c 0 =
        calculate_utility_ignore cfg_one c →
      (best_responses cfg_one agent_one 0)[0]? = some false) :=
  claim_C7 cfg_one agent_one 0 0 0 [] [true] 0

/-- Witness for claim C8 at a concrete one-citizen instance. -/
theorem claim_C8_witness :
    ∃ res, simulate_one_round cfg_one agent_one = some res ∧
      res.converged_iteration = stop_index cfg_one agent_one ∧
      1 ≤ res.converged_iteration ∧ res.converged_iteration ≤ 20 ∧
      res.participation_rate =
        rate_seq cfg_one agent_one res.converged_iteration * 100 ∧
      (∀ k : ℕ, k + 1 < res.converged_iteration →
        ¬ (|rate_seq cfg_one agent_one (k + 1) -
            rate_seq cfg_one agent_one k| < 1/1000)) ∧
      (res.converged_iteration < 20 →
        |rate_seq cfg_one agent_one res.converged_iteration -
          rate_seq cfg_one agent_one (res.converged_iteration - 1)| <
          1/1000) :=
  claim_C8 cfg_one agent_one (by decide)

/-- Witness for claim C9 at a concrete one-citizen instance. -/
theorem claim_C9_witness :
    ∃ res part, simulate_one_round cfg_one agent_one = some res ∧
      res.num_participating = num_true part ∧
      res.avg_quality =
        quality_sum agent_one part / ((max (num_true part) 1 : ℕ) : ℚ) ∧
      1 ≤ max (num_true part) 1 ∧
      (res.num_participating = 0 → res.avg_quality = 0) :=
  claim_C9 cfg_one agent_one (by decide)

/-- Witness for claim C10: population size 0 gives the empty population and
a division-by-zero failure, while the one-citizen population succeeds. -/
theorem claim_C10_witness :
    build_citizens 0 (fun _ => (1, 20, 1/2)) = [] ∧
    simulate_one_round cfg_zero [] = none ∧
    ∃ res, simulate_one_round cfg_one agent_one = some res :=
  claim_C10 (fun _ => (1, 20, 1/2)) cfg_zero [] rfl cfg_one agent_one
    (by decide)

end DemCoinSim
